import Mathlib

/-!
Shallow embedding of the HealthShare chaincode
(`src/chaincodes/chaincode-kv-node/index.js`).

Modelling conventions:
* The ledger (`ctx.stub` state) is an association list `Store` of composite
  keys to parsed values; `putState` overwrites, `getState` returns the value
  at the key (absent keys: `none`).
* A chaincode invocation is a function `Store → Except Err (α × Store)`;
  a thrown JS `Error` is `Except.error`.  Fabric discards the write set of a
  failed invocation, so an `error` result carries no store: the ledger is
  unchanged by construction.
* `Err` tags each throw site of the source with the error kind of the design
  (access denied / not found / already exists / invalid input / internal /
  missing attribute) and keeps the message text.
* JS string falsiness (`!s` true for `""`/`null`) is modelled explicitly;
  nullable attributes are `Option String`, a nullable numeric `expiry` is
  `Option Nat` (with `some 0` falsy, as `!0` is true in JS).
* `Date.now()` and the transaction timestamp are separate fields of the
  context (`now`, `txTimestamp`), mirroring the two time sources of the code.
* `String.prototype.includes`, `split(',')` and `trim()` are implemented over
  character lists so that every definition evaluates inside the kernel.
* `_checkAccessPolicy` additionally reports whether the scan iterator was
  `close()`d before control left the loop (the source closes it only on the
  `res.done` branch).
-/

deriving instance DecidableEq for Except

namespace HealthShare

/-- `needle` is a prefix of `hay` (char lists). -/
def charsPrefix : List Char → List Char → Bool
  | [], _ => true
  | _ :: _, [] => false
  | a :: as, b :: bs => a == b && charsPrefix as bs

/-- `needle` occurs contiguously inside `hay` (char lists). -/
def charsInfix (needle : List Char) : List Char → Bool
  | [] => charsPrefix needle []
  | c :: t => charsPrefix needle (c :: t) || charsInfix needle t

/-- JS `s.includes(sub)`: substring containment. -/
def jsIncludes (s sub : String) : Bool := charsInfix sub.toList s.toList

/-- Whitespace for JS `trim()` (the characters relevant to this code base). -/
def isSpaceChar (c : Char) : Bool := c == ' ' || c == '\t' || c == '\n' || c == '\r'

def dropSpaces : List Char → List Char
  | [] => []
  | c :: t => if isSpaceChar c then dropSpaces t else c :: t

/-- JS `s.trim()`. -/
def jsTrim (s : String) : String :=
  String.mk ((dropSpaces (dropSpaces s.toList).reverse).reverse)

def splitCommaAux (cur : List Char) : List Char → List (List Char)
  | [] => [cur.reverse]
  | c :: t => if c == ',' then cur.reverse :: splitCommaAux [] t else splitCommaAux (c :: cur) t

/-- JS `s.split(',')` (note: `"".split(',') == [""]`). -/
def jsSplitComma (s : String) : List String :=
  (splitCommaAux [] s.toList).map String.mk

/-- JS truthiness of a nullable string: `null` and `""` are falsy. -/
def jsTruthy : Option String → Bool
  | none => false
  | some s => s != ""

/-- Error kinds of the design (§7), tagging each throw site of the source. -/
inductive Err where
  | accessDenied (msg : String)
  | notFound (msg : String)
  | alreadyExists (msg : String)
  | invalidInput (msg : String)
  | internal (msg : String)
  | missingAttr (msg : String)
deriving DecidableEq

/-- A delegation policy, as stored by `grantAccess` (`expiry`: `none` = JS `null`). -/
structure Policy where
  patientId : String
  role : String
  dataType : String
  permissions : List String
  expiry : Option Nat
deriving DecidableEq

/-- The `details` object of an audit entry; only `patientId` is inspected by
`getAuditLogs`, the rest is kept opaque. -/
structure Details where
  patientId : Option String
  info : String
deriving DecidableEq

/-- One audit entry, as written by `_logAudit`. -/
structure AuditEntry where
  timestamp : Nat
  user : String
  channel : String
  action : String
  details : Details
deriving DecidableEq

/-- A medical record: the JSON attribute bag, with the fields this code reads
(`medical` for doctor updates, `policyData` for the insurance `policy` field);
`""` stands for an absent/falsy field. -/
structure Rec where
  hospitalID : String
  sensitivity : String
  medical : String
  policyData : String
deriving DecidableEq

/-- Composite keys (`createCompositeKey`): object type tag plus attributes. -/
inductive Key where
  | record (dataType patientId : String)
  | lab (patientId labId : String)
  | prescription (patientId prescriptionId : String)
  | policyKey (patientId role dataType : String)
  | audit (txId : String)
deriving DecidableEq

/-- Parsed ledger values. -/
inductive Value where
  | record (r : Rec)
  | pol (p : Policy)
  | aud (a : AuditEntry)
deriving DecidableEq

/-- The ledger world state: association list, newest binding first. -/
abbrev Store := List (Key × Value)

def Store.get (s : Store) (k : Key) : Option Value :=
  match s with
  | [] => none
  | (k0, v) :: t => if k0 == k then some v else Store.get t k

/-- Remove every binding of `k` (helper for the overwrite/delete semantics of
`putState`/`deleteState`). -/
def removeKey (k : Key) : Store → Store
  | [] => []
  | (k0, v) :: t => if k0 == k then removeKey k t else (k0, v) :: removeKey k t

/-- `putState`: overwrite the value at `k`. -/
def Store.put (s : Store) (k : Key) (v : Value) : Store :=
  (k, v) :: removeKey k s

/-- `deleteState`. -/
def Store.del (s : Store) (k : Key) : Store :=
  removeKey k s

/-- The per-invocation transaction context: caller identity attributes
(`ctx.clientIdentity`), channel, transaction id, transaction timestamp
(`none` = unavailable) and the wall clock `Date.now()`. -/
structure Ctx where
  role : Option String
  hospitalID : Option String
  clearance : Option String
  callerId : String
  channelId : String
  txId : String
  txTimestamp : Option Nat
  now : Nat
deriving DecidableEq

/-- `ABAC.requireRole`: throws unless the `role` attribute is truthy and in
the expected list; returns the role. -/
def requireRole (ctx : Ctx) (expected : List String) : Except Err String :=
  let joined := String.intercalate " or " expected
  match ctx.role with
  | none => .error (.accessDenied s!"Access denied: {joined} role required, but found none")
  | some r =>
    if r = "" then .error (.accessDenied s!"Access denied: {joined} role required, but found none")
    else if expected.contains r then .ok r
    else .error (.accessDenied s!"Access denied: {joined} role required, but found {r}")

/-- `ABAC.getAttr`: `null` attribute with `null` default throws, otherwise
the attribute if present (`=== null` check: `""` is returned as is). -/
def getAttr (attr : Option String) (dflt : Option String) (name : String) : Except Err String :=
  match attr, dflt with
  | none, none => .error (.missingAttr s!"Missing required attribute: {name}")
  | none, some d => .ok d
  | some v, _ => .ok v

/-- Rendering of a composite key for the `_readState` error message (the
`\u0000` delimiters of Fabric are abstracted to `/`). -/
def Key.render : Key → String
  | .record dt pid => s!"{dt}/{pid}"
  | .lab pid lid => s!"lab/{pid}/{lid}"
  | .prescription pid prid => s!"prescription/{pid}/{prid}"
  | .policyKey pid r dt => s!"policy/{pid}/{r}/{dt}"
  | .audit tx => s!"audit/{tx}"

/-- `BaseContract._readState`: throws `NotFound` when the key is absent. -/
def readState (s : Store) (k : Key) : Except Err Value :=
  match s.get k with
  | none =>
    let ks := k.render
    .error (.notFound s!"State {ks} does not exist")
  | some v => .ok v

/-- Read the record at `(dataType, patientId)` and parse it as a record. -/
def readRecordAt (s : Store) (dt pid : String) : Except Err Rec :=
  match readState s (Key.record dt pid) with
  | .error e => .error e
  | .ok (Value.record r) => .ok r
  | .ok _ => .error (.invalidInput "State is not a record")

/-- `BaseContract._logAudit`: on `audit-channel`, require a transaction
timestamp and write one entry keyed by the transaction id; on any other
channel do nothing. -/
def logAudit (s : Store) (ctx : Ctx) (action : String) (details : Details) :
    Except Err Store :=
  if ctx.channelId = "audit-channel" then
    match ctx.txTimestamp with
    | none => .error (.internal "Failed to get transaction timestamp")
    | some ts =>
      .ok (s.put (Key.audit ctx.txId)
        (Value.aud ⟨ts, ctx.callerId, ctx.channelId, action, details⟩))
  else .ok s

/-- The policy test of `_checkAccessPolicy` line 74:
`policy.permissions.includes(permission) && (!policy.expiry || policy.expiry > Date.now())`
(`!policy.expiry` is true for `null` and for `0`). -/
def policyMatches (now : Nat) (p : Policy) (perm : String) : Bool :=
  p.permissions.contains perm &&
    (match p.expiry with
     | none => true
     | some e => e == 0 || decide (e > now))

/-- The policies yielded by the partial-composite-key scan over
`('policy', [patientId, role, dataType])`, in store order. -/
def policiesFor (pid role dt : String) : Store → List Policy
  | [] => []
  | (Key.policyKey p r d, Value.pol pol) :: t =>
    if p == pid && r == role && d == dt then pol :: policiesFor pid role dt t
    else policiesFor pid role dt t
  | _ :: t => policiesFor pid role dt t

/-- The `while (true)` scan loop of `_checkAccessPolicy`, lines 70–91.
Result: the outcome, paired with whether `iterator.close()` ran before the
loop was left.  The source closes the iterator only on the `res.done` branch;
the `break` after a policy matched, and the hospital/clearance throws, leave
the loop without closing. -/
def scanPolicies (s : Store) (ctx : Ctx) (pid dt perm callerRole callerHosp : String) :
    List Policy → Except Err Rec × Bool
  | [] =>
    let cid := ctx.callerId
    (.error (.accessDenied
      s!"Access denied: No {perm} access for {callerRole} {cid} on {dt} for patient {pid}"),
     true)
  | p :: rest =>
    if policyMatches ctx.now p perm then
      match readRecordAt s dt pid with
      | .error e => (.error e, false)
      | .ok r =>
        if r.hospitalID != callerHosp then
          (.error (.accessDenied "Access denied: Record belongs to a different hospital"), false)
        else if r.sensitivity == "high" && ctx.clearance.getD "low" != "high" then
          (.error (.accessDenied "Access denied: High sensitivity data requires high clearance"), false)
        else (.ok r, false)
    else scanPolicies s ctx pid dt perm callerRole callerHosp rest

/-- `BaseContract._checkAccessPolicy`.  The boolean component reports whether
the scan iterator was closed (vacuously `true` when an attribute throw happens
before the iterator is opened). -/
def checkAccessPolicy (s : Store) (ctx : Ctx) (pid dt perm : String) :
    Except Err Rec × Bool :=
  match getAttr ctx.role none "role" with
  | .error e => (.error e, true)
  | .ok callerRole =>
    match getAttr ctx.hospitalID none "hospitalID" with
    | .error e => (.error e, true)
    | .ok callerHosp =>
      scanPolicies s ctx pid dt perm callerRole callerHosp (policiesFor pid callerRole dt s)

/-! ### AdminContract -/

/-- `AdminContract.createPatient`. -/
def createPatient (s : Store) (ctx : Ctx) (pid hosp : String) (payload : Rec) :
    Except Err (String × Store) := do
  let _ ← requireRole ctx ["admin"]
  let adminHosp ← getAttr ctx.hospitalID none "hospitalID"
  if adminHosp ≠ hosp then
    throw (.accessDenied "Access denied: Admin can only create patients in their hospital")
  if (s.get (Key.record "ehr" pid)).isSome then
    throw (.alreadyExists s!"Patient {pid} already exists")
  let data : Rec := { payload with
    hospitalID := hosp
    sensitivity := if payload.sensitivity = "" then "low" else payload.sensitivity }
  let s2 := s.put (Key.record "ehr" pid) (Value.record data)
  let s3 ← logAudit s2 ctx "createPatient" ⟨some pid, hosp⟩
  pure (s!"Patient {pid} created", s3)

/-! ### PatientContract -/

/-- `PatientContract.readMyRecord`: role gate, substring ownership check,
then the raw state is returned (no hospital or clearance gate on this path). -/
def readMyRecord (s : Store) (ctx : Ctx) (pid dt : String) :
    Except Err (Value × Store) := do
  let _ ← requireRole ctx ["patient"]
  if jsIncludes ctx.callerId pid = false then
    throw (.accessDenied "Access denied: Can only read your own record")
  let v ← readState s (Key.record dt pid)
  let s2 ← logAudit s ctx "readMyRecord" ⟨some pid, dt⟩
  pure (v, s2)

/-- `PatientContract.updateMyRecord`. -/
def updateMyRecord (s : Store) (ctx : Ctx) (pid dt : String) (payload : Rec) :
    Except Err (String × Store) := do
  let _ ← requireRole ctx ["patient"]
  if jsIncludes ctx.callerId pid = false then
    throw (.accessDenied "Access denied: Can only update your own record")
  let old ← readRecordAt s dt pid
  let upd : Rec := { payload with
    hospitalID := old.hospitalID
    sensitivity := if payload.sensitivity = "" then old.sensitivity else payload.sensitivity }
  let s2 := s.put (Key.record dt pid) (Value.record upd)
  let s3 ← logAudit s2 ctx "updateMyRecord" ⟨some pid, dt⟩
  pure (s!"{dt} for patient {pid} updated", s3)

def validPermissions : List String := ["read", "write"]

/-- `PatientContract.grantAccess` (the `expiry` argument models
`expiry ? parseInt(expiry) : null`: `none` for a falsy argument, `some n`
for a numeric one — in particular `"0"` yields `some 0`). -/
def grantAccess (s : Store) (ctx : Ctx) (pid role dt perms : String) (expiry : Option Nat) :
    Except Err (String × Store) := do
  let _ ← requireRole ctx ["patient"]
  if jsIncludes ctx.callerId pid = false then
    throw (.accessDenied "Access denied: Can only grant access for your own record")
  let permissionArray := (jsSplitComma perms).map jsTrim
  if !(permissionArray.all (fun p => validPermissions.contains p)) then
    throw (.invalidInput "Invalid permissions: Only read and write are allowed")
  let policy : Policy := ⟨pid, role, dt, permissionArray, expiry⟩
  let s2 := s.put (Key.policyKey pid role dt) (Value.pol policy)
  let s3 ← logAudit s2 ctx "grantAccess" ⟨some pid, dt⟩
  pure (s!"Access policy created for {role} on {dt}", s3)

/-- `PatientContract.revokeAccess`. -/
def revokeAccess (s : Store) (ctx : Ctx) (pid role dt : String) :
    Except Err (String × Store) := do
  let _ ← requireRole ctx ["patient"]
  if jsIncludes ctx.callerId pid = false then
    throw (.accessDenied "Access denied: Can only revoke access for your own record")
  let k := Key.policyKey pid role dt
  let _ ← readState s k
  let s2 := s.del k
  let s3 ← logAudit s2 ctx "revokeAccess" ⟨some pid, dt⟩
  pure (s!"Access policy for {role} on {dt} revoked", s3)

/-! ### DoctorContract -/

/-- `DoctorContract.readPatientRecord`. -/
def doctorReadPatientRecord (s : Store) (ctx : Ctx) (pid dt : String) :
    Except Err (Rec × Store) := do
  let _ ← requireRole ctx ["doctor"]
  let r ← (checkAccessPolicy s ctx pid dt "read").1
  let s2 ← logAudit s ctx "readPatientRecord" ⟨some pid, dt⟩
  pure (r, s2)

/-- `DoctorContract.updatePatientRecord`: merge of the existing record with
the payload's `medical` field (falsy fallback), `hospitalID` pinned to the
existing record's. -/
def doctorUpdatePatientRecord (s : Store) (ctx : Ctx) (pid dt : String) (payload : Rec) :
    Except Err (String × Store) := do
  let _ ← requireRole ctx ["doctor"]
  let old ← (checkAccessPolicy s ctx pid dt "write").1
  let merged : Rec := { old with
    medical := if payload.medical = "" then old.medical else payload.medical }
  let merged : Rec := { merged with
    hospitalID := old.hospitalID
    sensitivity := if merged.sensitivity = "" then old.sensitivity else merged.sensitivity }
  let s2 := s.put (Key.record dt pid) (Value.record merged)
  let s3 ← logAudit s2 ctx "updatePatientRecord" ⟨some pid, dt⟩
  pure (s!"{dt} for patient {pid} updated", s3)

/-! ### NurseContract -/

/-- `NurseContract.readPatientRecord`: direct read with hospital and
clearance gates. -/
def nurseReadPatientRecord (s : Store) (ctx : Ctx) (pid dt : String) :
    Except Err (Rec × Store) := do
  let _ ← requireRole ctx ["nurse"]
  let r ← readRecordAt s dt pid
  let callerHosp ← getAttr ctx.hospitalID none "hospitalID"
  if r.hospitalID ≠ callerHosp then
    throw (.accessDenied "Access denied: Record belongs to a different hospital")
  if r.sensitivity = "high" ∧ ctx.clearance.getD "low" ≠ "high" then
    throw (.accessDenied "Access denied: High sensitivity data requires high clearance")
  let s2 ← logAudit s ctx "readPatientRecord" ⟨some pid, dt⟩
  pure (r, s2)

/-! ### InsuranceContract -/

/-- `InsuranceContract.readInsuranceData`. -/
def readInsuranceData (s : Store) (ctx : Ctx) (pid : String) :
    Except Err (Rec × Store) := do
  let _ ← requireRole ctx ["insurance"]
  if ctx.channelId ≠ "insurance-channel" then
    throw (.accessDenied "Access denied: Insurance data only accessible on insurance-channel")
  let r ← (checkAccessPolicy s ctx pid "insurance" "read").1
  let s2 ← logAudit s ctx "readInsuranceData" ⟨some pid, "insurance"⟩
  pure (r, s2)

/-- `InsuranceContract.updateInsuranceData`. -/
def updateInsuranceData (s : Store) (ctx : Ctx) (pid : String) (payload : Rec) :
    Except Err (String × Store) := do
  let _ ← requireRole ctx ["insurance"]
  if ctx.channelId ≠ "insurance-channel" then
    throw (.accessDenied "Access denied: Insurance data only accessible on insurance-channel")
  let old ← (checkAccessPolicy s ctx pid "insurance" "write").1
  let merged : Rec := { old with
    policyData := if payload.policyData = "" then old.policyData else payload.policyData }
  let merged : Rec := { merged with
    hospitalID := old.hospitalID
    sensitivity := if merged.sensitivity = "" then old.sensitivity else merged.sensitivity }
  let s2 := s.put (Key.record "insurance" pid) (Value.record merged)
  let s3 ← logAudit s2 ctx "updateInsuranceData" ⟨some pid, "insurance"⟩
  pure (s!"Insurance data for patient {pid} updated", s3)

/-! ### AuditContract -/

/-- The audit entries yielded by the partial-composite-key scan over
`('audit', [])`, in store order. -/
def auditEntries (s : Store) : List AuditEntry :=
  List.filterMap (fun kv =>
    match kv with
    | (Key.audit _, Value.aud a) => some a
    | _ => none) s

/-- `AuditContract.getAuditLogs` (the time arguments model `parseInt`:
`none` for `NaN`; `parseInt(startTime) || 0` and `parseInt(endTime) || Date.now()`
treat both `NaN` and `0` as falsy). -/
def getAuditLogs (s : Store) (ctx : Ctx) (startTime endTime : Option Nat) :
    Except Err (List AuditEntry) := do
  let role ← requireRole ctx ["admin", "patient"]
  if ctx.channelId ≠ "audit-channel" then
    throw (.accessDenied "Access denied: Audit logs only accessible on audit-channel")
  let start := startTime.getD 0
  let stop := match endTime with
    | none => ctx.now
    | some e => if e = 0 then ctx.now else e
  pure ((auditEntries s).filter (fun log =>
    start ≤ log.timestamp && log.timestamp ≤ stop &&
      (role == "admin" ||
        (match log.details.patientId with
         | none => false
         | some p => p != "" && jsIncludes ctx.callerId p))))

/-- The error is of the access-denied kind. -/
def Err.isDenied : Err → Bool
  | .accessDenied _ => true
  | _ => false

/-- The result is an access-denied failure (and in particular no record or
payload is returned). -/
def denied {α : Type} : Except Err α → Bool
  | .error e => e.isDenied
  | .ok _ => false

/-! ## Helper lemmas -/

theorem get_removeKey_ne (s : Store) (k k2 : Key) (h : k2 ≠ k) :
    Store.get (removeKey k s) k2 = Store.get s k2 := by
  have hne : ¬(k = k2) := fun he => h he.symm
  induction s with
  | nil => rfl
  | cons hd tl ih =>
    obtain ⟨k0, v⟩ := hd
    by_cases h0 : k0 = k
    · subst h0
      simp [removeKey, Store.get, hne, ih]
    · simp [removeKey, Store.get, h0, ih]

theorem Store.get_put_self (s : Store) (k : Key) (v : Value) :
    (s.put k v).get k = some v := by
  simp [Store.put, Store.get]

theorem Store.get_put_ne (s : Store) (k k2 : Key) (v : Value) (h : k2 ≠ k) :
    (s.put k v).get k2 = s.get k2 := by
  have : (k == k2) = false := by
    simp only [beq_eq_false_iff_ne, ne_eq]
    intro he; exact h he.symm
  simp only [Store.put, Store.get, this, if_neg, Bool.false_eq_true]
  exact get_removeKey_ne s k k2 h

theorem Store.get_del_ne (s : Store) (k k2 : Key) (h : k2 ≠ k) :
    (s.del k).get k2 = s.get k2 :=
  get_removeKey_ne s k k2 h

/-- Every failure of `requireRole` is an access-denied error. -/
theorem requireRole_error_isDenied (ctx : Ctx) (expected : List String) (e : Err)
    (h : requireRole ctx expected = .error e) : e.isDenied = true := by
  cases hr : ctx.role with
  | none =>
    simp only [requireRole, hr] at h
    injection h with h2
    subst h2; rfl
  | some r =>
    simp only [requireRole, hr] at h
    split at h
    · injection h with h2; subst h2; rfl
    · split at h
      · cases h
      · injection h with h2; subst h2; rfl

/-- A successful `readRecordAt` is exactly a record stored at the key. -/
theorem readRecordAt_ok (s : Store) (dt pid : String) (r : Rec)
    (h : readRecordAt s dt pid = .ok r) :
    s.get (Key.record dt pid) = some (Value.record r) := by
  unfold readRecordAt readState at h
  cases hg : s.get (Key.record dt pid) with
  | none => rw [hg] at h; cases h
  | some v =>
    rw [hg] at h
    cases v with
    | record r1 => injection h with h2; rw [h2]
    | pol _ => cases h
    | aud _ => cases h

/-- A successful policy-path access read the target record from the store. -/
theorem scanPolicies_ok_get (s : Store) (ctx : Ctx) (pid dt perm cr ch : String)
    (r : Rec) (ps : List Policy)
    (h : (scanPolicies s ctx pid dt perm cr ch ps).1 = .ok r) :
    s.get (Key.record dt pid) = some (Value.record r) := by
  induction ps with
  | nil => simp [scanPolicies] at h
  | cons p rest ih =>
    simp only [scanPolicies] at h
    split at h
    · split at h
      · simp at h
      · rename_i r0 heq
        split at h
        · simp at h
        · split at h
          · simp at h
          · simp only [] at h
            injection h with h2
            exact h2 ▸ readRecordAt_ok s dt pid r0 heq
    · exact ih h

/-- `_checkAccessPolicy` returns exactly the record stored at the target key. -/
theorem checkAccessPolicy_ok_get (s : Store) (ctx : Ctx) (pid dt perm : String) (r : Rec)
    (h : (checkAccessPolicy s ctx pid dt perm).1 = .ok r) :
    s.get (Key.record dt pid) = some (Value.record r) := by
  unfold checkAccessPolicy at h
  cases h1 : getAttr ctx.role none "role" with
  | error e => rw [h1] at h; cases h
  | ok cr =>
    rw [h1] at h
    cases h2 : getAttr ctx.hospitalID none "hospitalID" with
    | error e => rw [h2] at h; cases h
    | ok ch =>
      rw [h2] at h
      exact scanPolicies_ok_get s ctx pid dt perm cr ch r _ h

/-- Deleting the `(pid, role, dt)` policy key empties the matching scan. -/
theorem policiesFor_removeKey (s : Store) (pid role dt : String) :
    policiesFor pid role dt (removeKey (Key.policyKey pid role dt) s) = [] := by
  induction s with
  | nil => rfl
  | cons hd tl ih =>
    obtain ⟨k, v⟩ := hd
    by_cases hk : k = Key.policyKey pid role dt
    · simp [removeKey, hk, ih]
    · rw [show removeKey (Key.policyKey pid role dt) ((k, v) :: tl)
          = (k, v) :: removeKey (Key.policyKey pid role dt) tl by simp [removeKey, hk]]
      cases k with
      | policyKey p0 r0 d0 =>
        cases v with
        | pol pol0 =>
          have hcond : (p0 == pid && r0 == role && d0 == dt) = false := by
            by_contra hcon
            rw [Bool.not_eq_false] at hcon
            simp only [Bool.and_eq_true, beq_iff_eq] at hcon
            exact hk (by rw [hcon.1.1, hcon.1.2, hcon.2])
          simp [policiesFor, hcond, ih]
        | record _ => simpa [policiesFor] using ih
        | aud _ => simpa [policiesFor] using ih
      | record a b => simpa [policiesFor] using ih
      | lab a b => simpa [policiesFor] using ih
      | prescription a b => simpa [policiesFor] using ih
      | audit a => simpa [policiesFor] using ih

/-- After storing a policy at `(pid, role, dt)`, the policy scan for that
triple yields exactly that policy. -/
theorem policiesFor_put (s : Store) (pid role dt : String) (p : Policy) :
    policiesFor pid role dt (s.put (Key.policyKey pid role dt) (Value.pol p)) = [p] := by
  simp [Store.put, policiesFor, policiesFor_removeKey]

theorem policiesFor_del (s : Store) (pid role dt : String) :
    policiesFor pid role dt (s.del (Key.policyKey pid role dt)) = [] :=
  policiesFor_removeKey s pid role dt

theorem except_bind_error {α β : Type} (e : Err) (f : α → Except Err β) :
    (Except.error e >>= f) = Except.error e := rfl

theorem except_bind_ok {α β : Type} (a : α) (f : α → Except Err β) :
    (Except.ok a >>= f) = f a := rfl

theorem denied_error {α : Type} (e : Err) : denied (α := α) (Except.error e) = e.isDenied := rfl

theorem denied_ok {α : Type} (a : α) : denied (Except.ok a) = false := rfl

theorem readRecordAt_of_get (s : Store) (dt pid : String) (r : Rec)
    (h : s.get (Key.record dt pid) = some (Value.record r)) :
    readRecordAt s dt pid = .ok r := by
  simp [readRecordAt, readState, h]

/-- With a high-sensitivity record and non-high caller clearance, every exit
of the policy scan is an access-denied failure. -/
theorem scanPolicies_denied_clearance (s : Store) (ctx : Ctx) (pid dt perm cr ch : String)
    (r : Rec) (hrec : s.get (Key.record dt pid) = some (Value.record r))
    (hsens : r.sensitivity = "high") (hcl : ctx.clearance.getD "low" ≠ "high")
    (ps : List Policy) :
    denied (scanPolicies s ctx pid dt perm cr ch ps).1 = true := by
  induction ps with
  | nil => rfl
  | cons p rest ih =>
    simp only [scanPolicies]
    split
    · simp only [readRecordAt_of_get s dt pid r hrec]
      split
      · rfl
      · have hc : (r.sensitivity == "high" && ctx.clearance.getD "low" != "high") = true := by
          rw [hsens]
          simp [hcl]
        rw [if_pos hc]
        rfl
    · exact ih

/-- With a record whose hospital differs from the caller attribute, every exit
of the policy scan is an access-denied failure. -/
theorem scanPolicies_denied_hospital (s : Store) (ctx : Ctx) (pid dt perm cr ch : String)
    (r : Rec) (hrec : s.get (Key.record dt pid) = some (Value.record r))
    (hmis : r.hospitalID ≠ ch)
    (ps : List Policy) :
    denied (scanPolicies s ctx pid dt perm cr ch ps).1 = true := by
  induction ps with
  | nil => rfl
  | cons p rest ih =>
    simp only [scanPolicies]
    split
    · simp only [readRecordAt_of_get s dt pid r hrec]
      rw [if_pos (by simp [hmis] : (r.hospitalID != ch) = true)]
      rfl
    · exact ih

theorem checkAccessPolicy_denied_clearance (s : Store) (ctx : Ctx) (pid dt perm ρ η : String)
    (r : Rec)
    (hrole : ctx.role = some ρ) (hhosp : ctx.hospitalID = some η)
    (hrec : s.get (Key.record dt pid) = some (Value.record r))
    (hsens : r.sensitivity = "high") (hcl : ctx.clearance.getD "low" ≠ "high") :
    denied (checkAccessPolicy s ctx pid dt perm).1 = true := by
  unfold checkAccessPolicy
  simp only [hrole, hhosp, getAttr]
  exact scanPolicies_denied_clearance s ctx pid dt perm ρ η r hrec hsens hcl _

theorem checkAccessPolicy_denied_hospital (s : Store) (ctx : Ctx) (pid dt perm ρ η : String)
    (r : Rec)
    (hrole : ctx.role = some ρ) (hhosp : ctx.hospitalID = some η)
    (hrec : s.get (Key.record dt pid) = some (Value.record r))
    (hmis : r.hospitalID ≠ η) :
    denied (checkAccessPolicy s ctx pid dt perm).1 = true := by
  unfold checkAccessPolicy
  simp only [hrole, hhosp, getAttr]
  exact scanPolicies_denied_hospital s ctx pid dt perm ρ η r hrec hmis _

theorem except_throw {α : Type} (e : Err) : (throw e : Except Err α) = Except.error e := rfl

theorem except_pure {α : Type} (a : α) : (pure a : Except Err α) = Except.ok a := rfl

/-! ## C1 — sensitivity/clearance gate -/

def c1Rec : Rec := ⟨"H1", "high", "", ""⟩

def c1Store : Store := [(Key.record "ehr" "p1", Value.record c1Rec)]

def c1Ctx : Ctx :=
  ⟨some "patient", some "H1", some "low", "x509::CN=p1::CA", "healthshare-channel",
   "tx-c1", some 7, 1000⟩

/-- C1 counterexample: a patient caller whose clearance attribute is `low`
reads their own record of sensitivity `high` through `readMyRecord`, and the
record is returned — the claim's clause for `readMyRecord` is false on the
code (that path has no clearance gate). -/
theorem c1_counterexample :
    c1Rec.sensitivity = "high" ∧
    c1Ctx.clearance.getD "low" ≠ "high" ∧
    readMyRecord c1Store c1Ctx "p1" "ehr" = .ok (Value.record c1Rec, c1Store) :=
  ⟨rfl, by decide, by decide⟩

/-- C1 (amended): for the delegated-policy path `_checkAccessPolicy`, doctor
`readPatientRecord`, nurse `readPatientRecord`, and insurer
`readInsuranceData`, a record of sensitivity `high` together with a caller
clearance other than `high` makes the operation fail with an access-denied
error (no record is returned); patient `readMyRecord` applies no
clearance gate (see the counterexample). -/
theorem c1_clearance_gate (s : Store) (ctx : Ctx) (pid dt ρ η : String) (r : Rec)
    (hrole : ctx.role = some ρ) (hhosp : ctx.hospitalID = some η)
    (hrec : s.get (Key.record dt pid) = some (Value.record r))
    (hsens : r.sensitivity = "high") (hcl : ctx.clearance.getD "low" ≠ "high") :
    denied (checkAccessPolicy s ctx pid dt "read").1 = true ∧
    denied (doctorReadPatientRecord s ctx pid dt) = true ∧
    denied (nurseReadPatientRecord s ctx pid dt) = true ∧
    (dt = "insurance" → denied (readInsuranceData s ctx pid) = true) := by
  have hcap := checkAccessPolicy_denied_clearance s ctx pid dt "read" ρ η r
    hrole hhosp hrec hsens hcl
  refine ⟨hcap, ?_, ?_, ?_⟩
  · unfold doctorReadPatientRecord
    cases hq : requireRole ctx ["doctor"] with
    | error e =>
      rw [except_bind_error, denied_error]
      exact requireRole_error_isDenied ctx _ e hq
    | ok r0 =>
      rw [except_bind_ok]
      cases hc : (checkAccessPolicy s ctx pid dt "read").1 with
      | ok rr => rw [hc] at hcap; exact absurd hcap (by simp [denied])
      | error e =>
        rw [hc] at hcap
        simp only [except_bind_error, denied_error]
        exact hcap
  · unfold nurseReadPatientRecord
    cases hq : requireRole ctx ["nurse"] with
    | error e =>
      rw [except_bind_error, denied_error]
      exact requireRole_error_isDenied ctx _ e hq
    | ok r0 =>
      rw [except_bind_ok, readRecordAt_of_get s dt pid r hrec, except_bind_ok]
      simp only [hhosp, getAttr]
      rw [except_bind_ok]
      by_cases hh : r.hospitalID = η
      · rw [if_neg (by simpa using hh), except_pure, except_bind_ok,
            if_pos ⟨hsens, hcl⟩, except_throw, except_bind_error, denied_error]
        rfl
      · rw [if_pos hh, except_throw, except_bind_error, denied_error]
        rfl
  · intro hdt
    subst hdt
    unfold readInsuranceData
    cases hq : requireRole ctx ["insurance"] with
    | error e =>
      rw [except_bind_error, denied_error]
      exact requireRole_error_isDenied ctx _ e hq
    | ok r0 =>
      rw [except_bind_ok]
      by_cases hch : ctx.channelId = "insurance-channel"
      · rw [if_neg (by simpa using hch), except_pure, except_bind_ok]
        cases hc : (checkAccessPolicy s ctx pid "insurance" "read").1 with
        | ok rr => rw [hc] at hcap; exact absurd hcap (by simp [denied])
        | error e =>
          rw [hc] at hcap
          simp only [except_bind_error, denied_error]
          exact hcap
      · rw [if_pos hch, except_throw, except_bind_error, denied_error]
        rfl

def c1wRec : Rec := ⟨"H1", "high", "", ""⟩

def c1wStore : Store :=
  [(Key.policyKey "p1" "doctor" "ehr", Value.pol ⟨"p1", "doctor", "ehr", ["read"], none⟩),
   (Key.record "ehr" "p1", Value.record c1wRec)]

def c1wCtx : Ctx :=
  ⟨some "doctor", some "H1", none, "x509::CN=d1::CA", "healthshare-channel",
   "tx-c1w", some 7, 1000⟩

/-- C1 witness: concrete doctor with a live read policy on a high-sensitivity
record and no clearance attribute (defaulting to `low`) — all gated paths are
denied. -/
theorem c1_witness :
    denied (checkAccessPolicy c1wStore c1wCtx "p1" "ehr" "read").1 = true ∧
    denied (doctorReadPatientRecord c1wStore c1wCtx "p1" "ehr") = true ∧
    denied (nurseReadPatientRecord c1wStore c1wCtx "p1" "ehr") = true ∧
    ("ehr" = "insurance" → denied (readInsuranceData c1wStore c1wCtx "p1") = true) :=
  c1_clearance_gate c1wStore c1wCtx "p1" "ehr" "doctor" "H1" c1wRec
    rfl rfl (by decide) rfl (by decide)

/-! ## C2 — hospital partition gate -/

def c2Rec : Rec := ⟨"H2", "low", "", ""⟩

def c2Store : Store :=
  [(Key.policyKey "p1" "patient" "ehr", Value.pol ⟨"p1", "patient", "ehr", ["read"], none⟩),
   (Key.record "ehr" "p1", Value.record c2Rec)]

def c2Ctx : Ctx :=
  ⟨some "patient", some "H1", some "high", "x509::CN=p1::CA", "healthshare-channel",
   "tx-c2", some 7, 1000⟩

/-- C2 counterexample: a patient caller whose `hospitalID` attribute is `H1`
reads a record stored with `hospitalID = H2` through `readMyRecord` (a live
matching policy even exists) and the read succeeds — the claim's universal
"any read" fails on the code: `readMyRecord` performs no hospital check. -/
theorem c2_counterexample :
    c2Ctx.hospitalID = some "H1" ∧ c2Rec.hospitalID = "H2" ∧ ("H1" : String) ≠ "H2" ∧
    readMyRecord c2Store c2Ctx "p1" "ehr" = .ok (Value.record c2Rec, c2Store) :=
  ⟨rfl, rfl, by decide, by decide⟩

/-- C2 (amended): for the delegated-policy path `_checkAccessPolicy` (any
permission; hence doctor `readPatientRecord` and insurer `readInsuranceData`)
and for nurse `readPatientRecord`, a record whose stored `hospitalID` differs
from the caller's `hospitalID` attribute always fails with an access-denied
error, policy or no policy; patient `readMyRecord` performs no hospital
check (see the counterexample). -/
theorem c2_hospital_gate (s : Store) (ctx : Ctx) (pid dt perm ρ η : String) (r : Rec)
    (hrole : ctx.role = some ρ) (hhosp : ctx.hospitalID = some η)
    (hrec : s.get (Key.record dt pid) = some (Value.record r))
    (hmis : r.hospitalID ≠ η) :
    denied (checkAccessPolicy s ctx pid dt perm).1 = true ∧
    denied (doctorReadPatientRecord s ctx pid dt) = true ∧
    denied (nurseReadPatientRecord s ctx pid dt) = true ∧
    (dt = "insurance" → denied (readInsuranceData s ctx pid) = true) := by
  have hcap := checkAccessPolicy_denied_hospital s ctx pid dt perm ρ η r hrole hhosp hrec hmis
  have hcapR := checkAccessPolicy_denied_hospital s ctx pid dt "read" ρ η r hrole hhosp hrec hmis
  refine ⟨hcap, ?_, ?_, ?_⟩
  · unfold doctorReadPatientRecord
    cases hq : requireRole ctx ["doctor"] with
    | error e =>
      rw [except_bind_error, denied_error]
      exact requireRole_error_isDenied ctx _ e hq
    | ok r0 =>
      rw [except_bind_ok]
      cases hc : (checkAccessPolicy s ctx pid dt "read").1 with
      | ok rr => rw [hc] at hcapR; exact absurd hcapR (by simp [denied])
      | error e =>
        rw [hc] at hcapR
        simp only [except_bind_error, denied_error]
        exact hcapR
  · unfold nurseReadPatientRecord
    cases hq : requireRole ctx ["nurse"] with
    | error e =>
      rw [except_bind_error, denied_error]
      exact requireRole_error_isDenied ctx _ e hq
    | ok r0 =>
      rw [except_bind_ok, readRecordAt_of_get s dt pid r hrec, except_bind_ok]
      simp only [hhosp, getAttr]
      rw [except_bind_ok, if_pos hmis, except_throw, except_bind_error, denied_error]
      rfl
  · intro hdt
    subst hdt
    unfold readInsuranceData
    cases hq : requireRole ctx ["insurance"] with
    | error e =>
      rw [except_bind_error, denied_error]
      exact requireRole_error_isDenied ctx _ e hq
    | ok r0 =>
      rw [except_bind_ok]
      by_cases hch : ctx.channelId = "insurance-channel"
      · rw [if_neg (by simpa using hch), except_pure, except_bind_ok]
        cases hc : (checkAccessPolicy s ctx pid "insurance" "read").1 with
        | ok rr => rw [hc] at hcapR; exact absurd hcapR (by simp [denied])
        | error e =>
          rw [hc] at hcapR
          simp only [except_bind_error, denied_error]
          exact hcapR
      · rw [if_pos hch, except_throw, except_bind_error, denied_error]
        rfl

def c2wRec : Rec := ⟨"H2", "low", "", ""⟩

def c2wStore : Store :=
  [(Key.policyKey "p1" "doctor" "ehr", Value.pol ⟨"p1", "doctor", "ehr", ["read"], none⟩),
   (Key.record "ehr" "p1", Value.record c2wRec)]

def c2wCtx : Ctx :=
  ⟨some "doctor", some "H1", some "high", "x509::CN=d1::CA", "healthshare-channel",
   "tx-c2w", some 7, 1000⟩

/-- C2 witness: a doctor of hospital `H1` holding a live read policy on a
record of hospital `H2` — every gated read path is denied. -/
theorem c2_witness :
    denied (checkAccessPolicy c2wStore c2wCtx "p1" "ehr" "read").1 = true ∧
    denied (doctorReadPatientRecord c2wStore c2wCtx "p1" "ehr") = true ∧
    denied (nurseReadPatientRecord c2wStore c2wCtx "p1" "ehr") = true ∧
    ("ehr" = "insurance" → denied (readInsuranceData c2wStore c2wCtx "p1") = true) :=
  c2_hospital_gate c2wStore c2wCtx "p1" "ehr" "read" "doctor" "H1" c2wRec
    rfl rfl (by decide) (by decide)

/-! ## C3 — expiry gate -/

def c3Pol : Policy := ⟨"p1", "doctor", "ehr", ["read"], some 0⟩

def c3Rec : Rec := ⟨"H1", "low", "", ""⟩

def c3Store : Store :=
  [(Key.policyKey "p1" "doctor" "ehr", Value.pol c3Pol),
   (Key.record "ehr" "p1", Value.record c3Rec)]

def c3Ctx : Ctx :=
  ⟨some "doctor", some "H1", some "high", "x509::CN=d1::CA", "healthshare-channel",
   "tx-c3", some 7, 1000⟩

/-- C3 counterexample: a stored policy whose `expiry` field is set — to `0`,
which is not greater than the current time 1000 — still grants access,
because `!policy.expiry` is true for `0` in JS and the expiry is treated as
absent.  The claim's "never grants" is false at this input. -/
theorem c3_counterexample :
    c3Pol.expiry = some 0 ∧ ¬ (0 > c3Ctx.now) ∧
    (checkAccessPolicy c3Store c3Ctx "p1" "ehr" "read").1 = .ok c3Rec :=
  ⟨rfl, by decide, by decide⟩

/-- C3 (amended): a stored policy whose `expiry` is set to a **nonzero**
timestamp not greater than the scan-time clock (`Date.now()`) never grants
access — the check fails with the access-denied "no matching" error and the
policy itself stays untouched in the store; an `expiry` equal to `0` is falsy
in JS and acts as "no expiry" (see the counterexample). -/
theorem c3_expired_policy (s : Store) (ctx : Ctx) (pid dt perm ρ η cid : String)
    (p : Policy) (e : Nat)
    (hrole : ctx.role = some ρ) (hhosp : ctx.hospitalID = some η)
    (hcid : ctx.callerId = cid)
    (hpol : policiesFor pid ρ dt s = [p])
    (hexp : p.expiry = some e) (hpos : e ≠ 0) (hle : e ≤ ctx.now) :
    (checkAccessPolicy s ctx pid dt perm).1 =
      .error (.accessDenied
        s!"Access denied: No {perm} access for {ρ} {cid} on {dt} for patient {pid}") := by
  have hmatch : policyMatches ctx.now p perm = false := by
    unfold policyMatches
    rw [hexp]
    have h1 : (e == 0) = false := by simpa using hpos
    have h2 : decide (e > ctx.now) = false := by
      simp [Nat.not_lt.mpr hle]
    simp [h1, h2]
  unfold checkAccessPolicy
  simp only [hrole, hhosp, getAttr, hpol]
  simp only [scanPolicies, hmatch, Bool.false_eq_true, if_false, hcid]

def c3wPol : Policy := ⟨"p1", "doctor", "ehr", ["read"], some 5⟩

def c3wStore : Store :=
  [(Key.policyKey "p1" "doctor" "ehr", Value.pol c3wPol),
   (Key.record "ehr" "p1", Value.record ⟨"H1", "low", "", ""⟩)]

def c3wCtx : Ctx :=
  ⟨some "doctor", some "H1", some "high", "x509::CN=d1::CA", "healthshare-channel",
   "tx-c3w", some 7, 1000⟩

/-- C3 witness: a policy that expired at time 5, scanned at time 1000, denies
with the "no matching policy" error. -/
theorem c3_witness :
    (checkAccessPolicy c3wStore c3wCtx "p1" "ehr" "read").1 =
      .error (.accessDenied
        "Access denied: No read access for doctor x509::CN=d1::CA on ehr for patient p1") :=
  c3_expired_policy c3wStore c3wCtx "p1" "ehr" "read" "doctor" "H1" "x509::CN=d1::CA"
    c3wPol 5 rfl rfl rfl (by decide) rfl (by decide) (by decide)

/-! ## C4 — grant, delegated read, revoke -/

theorem requireRole_some_mem (ctx : Ctx) (expected : List String) (ρ : String)
    (h : ctx.role = some ρ) (hne : ρ ≠ "") (hmem : expected.contains ρ = true) :
    requireRole ctx expected = .ok ρ := by
  have hmem2 : ρ ∈ expected := by simpa using hmem
  simp [requireRole, h, hne, hmem2]

theorem key_record_ne_policy (dt pid pid2 role dt2 : String) :
    Key.record dt pid ≠ Key.policyKey pid2 role dt2 := by
  intro hcon
  exact Key.noConfusion hcon

/-- C4: after the owning patient grants `(role, dt, perms)` with no expiry on
an existing record that passes the hospital and clearance gates, the
delegated access check for a caller of that role succeeds and returns the
record; after the patient revokes the same triple, the identical check fails
with an access-denied error. -/
theorem c4_grant_read_revoke (s : Store) (ctxP ctxR : Ctx)
    (pid role dt perms perm : String) (r : Rec)
    (hProle : ctxP.role = some "patient")
    (hOwn : jsIncludes ctxP.callerId pid = true)
    (hCh : ctxP.channelId ≠ "audit-channel")
    (hValid : ((jsSplitComma perms).map jsTrim).all
      (fun q => validPermissions.contains q) = true)
    (hPerm : ((jsSplitComma perms).map jsTrim).contains perm = true)
    (hRrole : ctxR.role = some role)
    (hRhosp : ctxR.hospitalID = some r.hospitalID)
    (hRec : s.get (Key.record dt pid) = some (Value.record r))
    (hClear : ¬(r.sensitivity = "high" ∧ ctxR.clearance.getD "low" ≠ "high")) :
    ∃ m1 s1 m2 s2,
      grantAccess s ctxP pid role dt perms none = .ok (m1, s1) ∧
      (checkAccessPolicy s1 ctxR pid dt perm).1 = .ok r ∧
      revokeAccess s1 ctxP pid role dt = .ok (m2, s2) ∧
      denied (checkAccessPolicy s2 ctxR pid dt perm).1 = true := by
  have hrr := requireRole_some_mem ctxP ["patient"] "patient" hProle (by decide) (by decide)
  set pol : Policy := ⟨pid, role, dt, (jsSplitComma perms).map jsTrim, none⟩ with hpol
  set k : Key := Key.policyKey pid role dt with hk
  set s1 : Store := s.put k (Value.pol pol) with hs1
  set s2 : Store := s1.del k with hs2
  have hv2 : ∀ x ∈ jsSplitComma perms, jsTrim x ∈ validPermissions := by
    simpa using hValid
  have hnotex : ¬∃ x ∈ jsSplitComma perms, jsTrim x ∉ validPermissions := by
    push_neg
    exact fun x hx => hv2 x hx
  have hgrant : grantAccess s ctxP pid role dt perms none =
      .ok (s!"Access policy created for {role} on {dt}", s1) := by
    unfold grantAccess
    rw [hrr]
    simp [hOwn, hnotex, logAudit, hCh, hs1, hk, hpol, except_bind_ok, except_pure]
  have hs1get : s1.get (Key.record dt pid) = some (Value.record r) := by
    rw [hs1, Store.get_put_ne s k (Key.record dt pid) (Value.pol pol)
      (key_record_ne_policy dt pid pid role dt)]
    exact hRec
  have hPerm2 : perm ∈ (jsSplitComma perms).map jsTrim := by
    simpa using hPerm
  have hmatch : policyMatches ctxR.now pol perm = true := by
    have := List.mem_map.mp hPerm2
    simp only [policyMatches, hpol]
    simpa using hPerm2
  have hcb : (r.sensitivity == "high" && ctxR.clearance.getD "low" != "high") = false := by
    by_cases hs : r.sensitivity = "high"
    · have hcl2 : ctxR.clearance.getD "low" = "high" := by
        by_contra hne
        exact hClear ⟨hs, hne⟩
      simp [hcl2]
    · simp [hs]
  have hread : (checkAccessPolicy s1 ctxR pid dt perm).1 = .ok r := by
    unfold checkAccessPolicy
    simp only [hRrole, hRhosp, getAttr]
    rw [show policiesFor pid role dt s1 = [pol] from policiesFor_put s pid role dt pol]
    simp only [scanPolicies, hmatch, if_true, readRecordAt_of_get s1 dt pid r hs1get,
      bne_self_eq_false, Bool.false_eq_true, if_false, hcb]
  have hreadpol : readState s1 (Key.policyKey pid role dt) = .ok (Value.pol pol) := by
    rw [hs1, hk]
    simp [readState, Store.get_put_self]
  have hrevoke : revokeAccess s1 ctxP pid role dt =
      .ok (s!"Access policy for {role} on {dt} revoked", s2) := by
    unfold revokeAccess
    rw [hrr]
    simp [hOwn, hreadpol, logAudit, hCh, hs2, hk, except_bind_ok, except_pure]
  have hdenied : denied (checkAccessPolicy s2 ctxR pid dt perm).1 = true := by
    unfold checkAccessPolicy
    simp only [hRrole, hRhosp, getAttr]
    rw [show policiesFor pid role dt s2 = [] from policiesFor_del s1 pid role dt]
    rfl
  exact ⟨_, s1, _, s2, hgrant, hread, hrevoke, hdenied⟩

def c4S : Store := [(Key.record "ehr" "p1", Value.record ⟨"H1", "low", "m0", ""⟩)]

def c4CtxP : Ctx :=
  ⟨some "patient", some "H1", none, "x509::CN=p1::CA", "healthshare-channel",
   "tx-c4p", some 7, 1000⟩

def c4CtxR : Ctx :=
  ⟨some "doctor", some "H1", none, "x509::CN=d1::CA", "healthshare-channel",
   "tx-c4r", some 7, 1000⟩

/-- C4 witness: patient `p1` grants the doctor role `read` on `ehr`, the
doctor-side check returns the record, revocation makes the same check
access-denied. -/
theorem c4_witness :
    ∃ m1 s1 m2 s2,
      grantAccess c4S c4CtxP "p1" "doctor" "ehr" "read" none = .ok (m1, s1) ∧
      (checkAccessPolicy s1 c4CtxR "p1" "ehr" "read").1 = .ok ⟨"H1", "low", "m0", ""⟩ ∧
      revokeAccess s1 c4CtxP "p1" "doctor" "ehr" = .ok (m2, s2) ∧
      denied (checkAccessPolicy s2 c4CtxR "p1" "ehr" "read").1 = true :=
  c4_grant_read_revoke c4S c4CtxP c4CtxR "p1" "doctor" "ehr" "read" "read"
    ⟨"H1", "low", "m0", ""⟩ rfl (by decide) (by decide) (by decide) (by decide)
    rfl rfl (by decide) (by decide)

/-! ## C5 — audit logging channel scope -/

/-- C5: `_logAudit` writes exactly one audit entry — keyed by the transaction
id, leaving every other key unchanged — when the invocation's channel equals
`audit-channel` (and a transaction timestamp is available); on any other
channel it succeeds as a silent no-op writing nothing. -/
theorem c5_audit_channel_scope (s : Store) (ctx : Ctx) (a : String) (d : Details) :
    (∀ ts, ctx.channelId = "audit-channel" → ctx.txTimestamp = some ts →
      ∃ s2, logAudit s ctx a d = .ok s2 ∧
        s2.get (Key.audit ctx.txId) =
          some (Value.aud ⟨ts, ctx.callerId, ctx.channelId, a, d⟩) ∧
        (∀ k, k ≠ Key.audit ctx.txId → s2.get k = s.get k)) ∧
    (ctx.channelId ≠ "audit-channel" → logAudit s ctx a d = .ok s) := by
  constructor
  · intro ts hch hts
    refine ⟨s.put (Key.audit ctx.txId)
      (Value.aud ⟨ts, ctx.callerId, ctx.channelId, a, d⟩), ?_, ?_, ?_⟩
    · simp only [logAudit, hch, if_pos, hts]
    · exact Store.get_put_self s (Key.audit ctx.txId) _
    · intro k hk
      exact Store.get_put_ne s (Key.audit ctx.txId) k _ hk
  · intro hch
    simp [logAudit, hch]

def c5Ctx : Ctx :=
  ⟨some "admin", some "H1", none, "x509::CN=a1::CA", "audit-channel", "tx-c5", some 42, 1000⟩

def c5Ctx2 : Ctx :=
  ⟨some "admin", some "H1", none, "x509::CN=a1::CA", "healthshare-channel", "tx-c5", some 42, 1000⟩

def c5Det : Details := ⟨some "p1", "H1"⟩

/-- C5 witness: on `audit-channel` one entry keyed by the transaction id is
written (all other keys untouched); on another channel the call is a no-op
success. -/
theorem c5_witness :
    (∃ s2, logAudit ([] : Store) c5Ctx "createPatient" c5Det = .ok s2 ∧
      s2.get (Key.audit "tx-c5") =
        some (Value.aud ⟨42, "x509::CN=a1::CA", "audit-channel", "createPatient", c5Det⟩) ∧
      (∀ k, k ≠ Key.audit "tx-c5" → s2.get k = Store.get ([] : Store) k)) ∧
    logAudit ([] : Store) c5Ctx2 "createPatient" c5Det = .ok ([] : Store) :=
  ⟨(c5_audit_channel_scope ([] : Store) c5Ctx "createPatient" c5Det).1 42 rfl rfl,
   (c5_audit_channel_scope ([] : Store) c5Ctx2 "createPatient" c5Det).2 (by decide)⟩

/-! ## C6 — audit query gating and filtering -/

theorem requireRole_ok_inv (ctx : Ctx) (expected : List String) (ρ : String)
    (h : requireRole ctx expected = .ok ρ) :
    ctx.role = some ρ ∧ ρ ≠ "" ∧ ρ ∈ expected := by
  cases hr : ctx.role with
  | none =>
    simp only [requireRole, hr] at h
    cases h
  | some r =>
    simp only [requireRole, hr] at h
    split at h
    · cases h
    · split at h
      · injection h with h2
        subst h2
        rename_i h0 hc
        exact ⟨rfl, h0, by simpa using hc⟩
      · cases h

/-- The role/channel gate of `getAuditLogs`, as the claim states it. -/
def auditQueryGate (ctx : Ctx) : Bool :=
  (match ctx.role with
   | none => false
   | some ρ => ρ != "" && (ρ == "admin" || ρ == "patient")) &&
  (ctx.channelId == "audit-channel")

/-- C6: `getAuditLogs` fails unless the caller role is `admin` or `patient`
and the channel is `audit-channel`; otherwise it returns exactly the stored
audit entries whose timestamp lies in `[startTime, endTime]`, all of them for
an admin and, for a patient, only those whose `details.patientId` is
contained in the caller's identity (the code's notion of "matches"). -/
theorem c6_audit_query (s : Store) (ctx : Ctx) (st en : Option Nat) :
    (auditQueryGate ctx = false → denied (getAuditLogs s ctx st en) = true) ∧
    (∀ ρ a b, ctx.role = some ρ → (ρ = "admin" ∨ ρ = "patient") →
      ctx.channelId = "audit-channel" → st = some a → en = some b → b ≠ 0 →
      ∃ logs, getAuditLogs s ctx st en = .ok logs ∧
        ∀ log, log ∈ logs ↔ (log ∈ auditEntries s ∧ a ≤ log.timestamp ∧ log.timestamp ≤ b ∧
          (ρ = "admin" ∨ ∃ pv, log.details.patientId = some pv ∧ pv ≠ "" ∧
            jsIncludes ctx.callerId pv = true))) := by
  constructor
  · intro hgate
    unfold getAuditLogs
    cases hq : requireRole ctx ["admin", "patient"] with
    | error e =>
      rw [except_bind_error, denied_error]
      exact requireRole_error_isDenied ctx _ e hq
    | ok ρ0 =>
      obtain ⟨hrole, hne, hmem⟩ := requireRole_ok_inv ctx _ ρ0 hq
      rw [except_bind_ok]
      by_cases hch : ctx.channelId = "audit-channel"
      · exfalso
        have : auditQueryGate ctx = true := by
          simp only [auditQueryGate, hrole, hch]
          simp only [List.mem_cons, List.mem_singleton, List.not_mem_nil, or_false] at hmem
          rcases hmem with h | h <;> simp [h]
        rw [this] at hgate
        cases hgate
      · rw [if_pos hch, except_throw, except_bind_error, denied_error]
        rfl
  · intro ρ a b hrole hmem hch hst hen hb0
    have hne : ρ ≠ "" := by rcases hmem with h | h <;> simp [h]
    have hcont : (["admin", "patient"] : List String).contains ρ = true := by
      rcases hmem with h | h <;> simp [h]
    have hrr := requireRole_some_mem ctx ["admin", "patient"] ρ hrole hne hcont
    unfold getAuditLogs
    rw [hrr, except_bind_ok, if_neg (by simp [hch]), except_pure, except_bind_ok,
      hst, hen]
    refine ⟨_, rfl, ?_⟩
    intro log
    rw [List.mem_filter]
    have hstop : (match some b with
        | none => ctx.now
        | some e => if e = 0 then ctx.now else e) = b := by
      simp [hb0]
    constructor
    · rintro ⟨hmemL, hcond⟩
      rw [hstop] at hcond
      simp only [Option.getD, Bool.and_eq_true, decide_eq_true_eq, Bool.or_eq_true,
        beq_iff_eq] at hcond
      obtain ⟨⟨h1, h2⟩, h3⟩ := hcond
      refine ⟨hmemL, h1, h2, ?_⟩
      rcases h3 with h3 | h3
      · exact Or.inl h3
      · right
        cases hp : log.details.patientId with
        | none => rw [hp] at h3; cases h3
        | some pv =>
          rw [hp] at h3
          simp only [Bool.and_eq_true, bne_iff_ne, ne_eq] at h3
          exact ⟨pv, rfl, h3.1, h3.2⟩
    · rintro ⟨hmemL, h1, h2, h3⟩
      refine ⟨hmemL, ?_⟩
      rw [hstop]
      simp only [Option.getD, Bool.and_eq_true, decide_eq_true_eq, Bool.or_eq_true,
        beq_iff_eq]
      refine ⟨⟨h1, h2⟩, ?_⟩
      rcases h3 with h3 | h3
      · exact Or.inl h3
      · right
        obtain ⟨pv, hp, hpne, hinc⟩ := h3
        rw [hp]
        simp [hpne, hinc]

def c6Entry1 : AuditEntry :=
  ⟨50, "x509::CN=a1::CA", "audit-channel", "createPatient", ⟨some "p1", "H1"⟩⟩

def c6Entry2 : AuditEntry :=
  ⟨60, "x509::CN=d1::CA", "audit-channel", "readPatientRecord", ⟨some "p2", "ehr"⟩⟩

def c6Store : Store :=
  [(Key.audit "t1", Value.aud c6Entry1), (Key.audit "t2", Value.aud c6Entry2)]

def c6CtxPat : Ctx :=
  ⟨some "patient", some "H1", none, "x509::CN=p1::CA", "audit-channel", "tx-c6", some 9, 1000⟩

/-- C6 witness: a patient on the audit channel with time range [0, 100] gets
exactly the in-range entries whose `details.patientId` occurs in their
identity; with the gate violated (role `patient` but wrong channel would be
analogous — here a failing gate value) the query is denied. -/
theorem c6_witness :
    (denied (getAuditLogs c6Store
      { c6CtxPat with channelId := "healthshare-channel" } (some 0) (some 100)) = true) ∧
    ∃ logs, getAuditLogs c6Store c6CtxPat (some 0) (some 100) = .ok logs ∧
      ∀ log, log ∈ logs ↔ (log ∈ auditEntries c6Store ∧ 0 ≤ log.timestamp ∧
        log.timestamp ≤ 100 ∧ ("patient" = "admin" ∨ ∃ pv,
          log.details.patientId = some pv ∧ pv ≠ "" ∧
          jsIncludes c6CtxPat.callerId pv = true)) :=
  ⟨(c6_audit_query c6Store { c6CtxPat with channelId := "healthshare-channel" }
      (some 0) (some 100)).1 (by decide),
   (c6_audit_query c6Store c6CtxPat (some 0) (some 100)).2 "patient" 0 100
      rfl (Or.inr rfl) rfl rfl rfl (by decide)⟩

/-! ## C7 — hospitalID immutability -/

theorem logAudit_ok_get (s s2 : Store) (ctx : Ctx) (a : String) (d : Details)
    (h : logAudit s ctx a d = .ok s2) (k : Key) (hk : ∀ tx, k ≠ Key.audit tx) :
    s2.get k = s.get k := by
  unfold logAudit at h
  split at h
  · cases hts : ctx.txTimestamp with
    | none => rw [hts] at h; cases h
    | some ts =>
      rw [hts] at h
      injection h with h2
      subst h2
      exact Store.get_put_ne s (Key.audit ctx.txId) k _ (hk ctx.txId)
  · injection h with h2
    subst h2
    rfl

theorem key_record_ne_audit (dt pid tx : String) :
    Key.record dt pid ≠ Key.audit tx := by
  intro hcon
  exact Key.noConfusion hcon

/-- C7: every successful update — patient `updateMyRecord`, doctor
`updatePatientRecord`, insurer `updateInsuranceData` — writes back a record
whose `hospitalID` equals the previously stored record's `hospitalID`,
whatever `hospitalID` the update payload carries. -/
theorem c7_hospital_immutable :
    (∀ s ctx pid dt payload m s2, updateMyRecord s ctx pid dt payload = .ok (m, s2) →
      ∃ old upd, s.get (Key.record dt pid) = some (Value.record old) ∧
        s2.get (Key.record dt pid) = some (Value.record upd) ∧
        upd.hospitalID = old.hospitalID) ∧
    (∀ s ctx pid dt payload m s2, doctorUpdatePatientRecord s ctx pid dt payload = .ok (m, s2) →
      ∃ old upd, s.get (Key.record dt pid) = some (Value.record old) ∧
        s2.get (Key.record dt pid) = some (Value.record upd) ∧
        upd.hospitalID = old.hospitalID) ∧
    (∀ s ctx pid payload m s2, updateInsuranceData s ctx pid payload = .ok (m, s2) →
      ∃ old upd, s.get (Key.record "insurance" pid) = some (Value.record old) ∧
        s2.get (Key.record "insurance" pid) = some (Value.record upd) ∧
        upd.hospitalID = old.hospitalID) := by
  refine ⟨?_, ?_, ?_⟩
  · intro s ctx pid dt payload m s2 h
    unfold updateMyRecord at h
    cases hq : requireRole ctx ["patient"] with
    | error e => rw [hq, except_bind_error] at h; cases h
    | ok r0 =>
      rw [hq, except_bind_ok] at h
      by_cases how : jsIncludes ctx.callerId pid = false
      · rw [if_pos how, except_throw, except_bind_error] at h
        cases h
      · rw [if_neg how, except_pure, except_bind_ok] at h
        cases hrd : readRecordAt s dt pid with
        | error e => rw [hrd, except_bind_error] at h; cases h
        | ok old =>
          rw [hrd, except_bind_ok] at h
          simp only [] at h
          cases hla : logAudit (s.put (Key.record dt pid)
              (Value.record { payload with
                hospitalID := old.hospitalID
                sensitivity := if payload.sensitivity = "" then old.sensitivity
                  else payload.sensitivity }))
              ctx "updateMyRecord" ⟨some pid, dt⟩ with
          | error e => rw [hla, except_bind_error] at h; cases h
          | ok s3 =>
            rw [hla, except_bind_ok, except_pure] at h
            injection h with h2
            have hs2 : s3 = s2 := congrArg Prod.snd h2
            have hget := logAudit_ok_get _ s3 ctx _ _ hla
              (Key.record dt pid) (key_record_ne_audit dt pid)
            rw [Store.get_put_self] at hget
            refine ⟨old, _, readRecordAt_ok s dt pid old hrd, hs2 ▸ hget, ?_⟩
            rfl
  · intro s ctx pid dt payload m s2 h
    unfold doctorUpdatePatientRecord at h
    cases hq : requireRole ctx ["doctor"] with
    | error e => rw [hq, except_bind_error] at h; cases h
    | ok r0 =>
      rw [hq, except_bind_ok] at h
      cases hc : (checkAccessPolicy s ctx pid dt "write").1 with
      | error e => rw [hc, except_bind_error] at h; cases h
      | ok old =>
        rw [hc, except_bind_ok] at h
        simp only [] at h
        cases hla : logAudit (s.put (Key.record dt pid)
            (Value.record { { old with
                medical := if payload.medical = "" then old.medical else payload.medical } with
              hospitalID := old.hospitalID
              sensitivity := if ({ old with
                medical := if payload.medical = "" then old.medical
                  else payload.medical } : Rec).sensitivity = "" then old.sensitivity
                else ({ old with
                  medical := if payload.medical = "" then old.medical
                    else payload.medical } : Rec).sensitivity }))
            ctx "updatePatientRecord" ⟨some pid, dt⟩ with
        | error e => rw [hla, except_bind_error] at h; cases h
        | ok s3 =>
          rw [hla, except_bind_ok, except_pure] at h
          injection h with h2
          have hs2 : s3 = s2 := congrArg Prod.snd h2
          have hget := logAudit_ok_get _ s3 ctx _ _ hla
            (Key.record dt pid) (key_record_ne_audit dt pid)
          rw [Store.get_put_self] at hget
          refine ⟨old, _, checkAccessPolicy_ok_get s ctx pid dt "write" old hc,
            hs2 ▸ hget, ?_⟩
          rfl
  · intro s ctx pid payload m s2 h
    unfold updateInsuranceData at h
    cases hq : requireRole ctx ["insurance"] with
    | error e => rw [hq, except_bind_error] at h; cases h
    | ok r0 =>
      rw [hq, except_bind_ok] at h
      by_cases hch : ctx.channelId = "insurance-channel"
      · rw [if_neg (by simpa using hch), except_pure, except_bind_ok] at h
        cases hc : (checkAccessPolicy s ctx pid "insurance" "write").1 with
        | error e => rw [hc, except_bind_error] at h; cases h
        | ok old =>
          rw [hc, except_bind_ok] at h
          simp only [] at h
          cases hla : logAudit (s.put (Key.record "insurance" pid)
              (Value.record { { old with
                  policyData := if payload.policyData = "" then old.policyData
                    else payload.policyData } with
                hospitalID := old.hospitalID
                sensitivity := if ({ old with
                  policyData := if payload.policyData = "" then old.policyData
                    else payload.policyData } : Rec).sensitivity = "" then old.sensitivity
                  else ({ old with
                    policyData := if payload.policyData = "" then old.policyData
                      else payload.policyData } : Rec).sensitivity }))
              ctx "updateInsuranceData" ⟨some pid, "insurance"⟩ with
          | error e => rw [hla, except_bind_error] at h; cases h
          | ok s3 =>
            rw [hla, except_bind_ok, except_pure] at h
            injection h with h2
            have hs2 : s3 = s2 := congrArg Prod.snd h2
            have hget := logAudit_ok_get _ s3 ctx _ _ hla
              (Key.record "insurance" pid) (key_record_ne_audit "insurance" pid)
            rw [Store.get_put_self] at hget
            refine ⟨old, _, checkAccessPolicy_ok_get s ctx pid "insurance" "write" old hc,
              hs2 ▸ hget, ?_⟩
            rfl
      · rw [if_pos hch, except_throw, except_bind_error] at h
        cases h

def c7S1 : Store := [(Key.record "ehr" "p1", Value.record ⟨"H1", "low", "m0", ""⟩)]

def c7CtxP : Ctx :=
  ⟨some "patient", some "H1", none, "x509::CN=p1::CA", "healthshare-channel",
   "tx-c7a", some 7, 1000⟩

def c7S2 : Store :=
  [(Key.policyKey "p1" "doctor" "ehr", Value.pol ⟨"p1", "doctor", "ehr", ["write"], none⟩),
   (Key.record "ehr" "p1", Value.record ⟨"H1", "low", "m0", ""⟩)]

def c7CtxD : Ctx :=
  ⟨some "doctor", some "H1", none, "x509::CN=d1::CA", "healthshare-channel",
   "tx-c7b", some 7, 1000⟩

def c7S3 : Store :=
  [(Key.policyKey "p1" "insurance" "insurance",
    Value.pol ⟨"p1", "insurance", "insurance", ["write"], none⟩),
   (Key.record "insurance" "p1", Value.record ⟨"H1", "low", "", "pol0"⟩)]

def c7CtxI : Ctx :=
  ⟨some "insurance", some "H1", none, "x509::CN=i1::CA", "insurance-channel",
   "tx-c7c", some 7, 1000⟩

/-- C7 witness: concrete successful runs of all three updates, each with a
payload carrying a foreign `hospitalID`, all preserving the stored one. -/
theorem c7_witness :
    (∃ old upd, Store.get c7S1 (Key.record "ehr" "p1") = some (Value.record old) ∧
      Store.get [(Key.record "ehr" "p1", Value.record ⟨"H1", "low", "m1", ""⟩)]
        (Key.record "ehr" "p1") = some (Value.record upd) ∧
      upd.hospitalID = old.hospitalID) ∧
    (∃ old upd, Store.get c7S2 (Key.record "ehr" "p1") = some (Value.record old) ∧
      Store.get [(Key.record "ehr" "p1", Value.record ⟨"H1", "low", "m2", ""⟩),
        (Key.policyKey "p1" "doctor" "ehr",
          Value.pol ⟨"p1", "doctor", "ehr", ["write"], none⟩)]
        (Key.record "ehr" "p1") = some (Value.record upd) ∧
      upd.hospitalID = old.hospitalID) ∧
    (∃ old upd, Store.get c7S3 (Key.record "insurance" "p1") = some (Value.record old) ∧
      Store.get [(Key.record "insurance" "p1", Value.record ⟨"H1", "low", "", "pol1"⟩),
        (Key.policyKey "p1" "insurance" "insurance",
          Value.pol ⟨"p1", "insurance", "insurance", ["write"], none⟩)]
        (Key.record "insurance" "p1") = some (Value.record upd) ∧
      upd.hospitalID = old.hospitalID) :=
  ⟨c7_hospital_immutable.1 c7S1 c7CtxP "p1" "ehr" ⟨"HACK", "", "m1", ""⟩
      "ehr for patient p1 updated"
      [(Key.record "ehr" "p1", Value.record ⟨"H1", "low", "m1", ""⟩)] (by decide),
   c7_hospital_immutable.2.1 c7S2 c7CtxD "p1" "ehr" ⟨"HACK", "", "m2", ""⟩
      "ehr for patient p1 updated"
      [(Key.record "ehr" "p1", Value.record ⟨"H1", "low", "m2", ""⟩),
       (Key.policyKey "p1" "doctor" "ehr",
         Value.pol ⟨"p1", "doctor", "ehr", ["write"], none⟩)] (by decide),
   c7_hospital_immutable.2.2 c7S3 c7CtxI "p1" ⟨"HACK", "", "", "pol1"⟩
      "Insurance data for patient p1 updated"
      [(Key.record "insurance" "p1", Value.record ⟨"H1", "low", "", "pol1"⟩),
       (Key.policyKey "p1" "insurance" "insurance",
         Value.pol ⟨"p1", "insurance", "insurance", ["write"], none⟩)] (by decide)⟩

/-! ## C8 — duplicate creation -/

/-- C8: when an `ehr` record already exists under `(ehr, patientId)`, a
second `createPatient` by a same-hospital admin fails with the AlreadyExists
error; a failed invocation commits nothing, so the store is unchanged, and
the store keyed by `(dataType, patientId)` holds at most one record per key
by construction. -/
theorem c8_duplicate_create (s : Store) (ctx : Ctx) (pid hosp : String)
    (payload : Rec) (v : Value)
    (hrole : ctx.role = some "admin")
    (hhosp : ctx.hospitalID = some hosp)
    (hex : s.get (Key.record "ehr" pid) = some v) :
    createPatient s ctx pid hosp payload =
      .error (.alreadyExists s!"Patient {pid} already exists") := by
  have hrr := requireRole_some_mem ctx ["admin"] "admin" hrole (by decide) (by decide)
  unfold createPatient
  rw [hrr]
  simp [hhosp, getAttr, hex, except_bind_ok, except_throw, except_bind_error]

def c8S : Store := [(Key.record "ehr" "p1", Value.record ⟨"H1", "low", "", ""⟩)]

def c8Ctx : Ctx :=
  ⟨some "admin", some "H1", none, "x509::CN=a1::CA", "healthshare-channel",
   "tx-c8", some 7, 1000⟩

/-- C8 witness: concrete duplicate creation of `p1` fails with AlreadyExists. -/
theorem c8_witness :
    createPatient c8S c8Ctx "p1" "H1" ⟨"", "", "", ""⟩ =
      .error (.alreadyExists "Patient p1 already exists") :=
  c8_duplicate_create c8S c8Ctx "p1" "H1" ⟨"", "", "", ""⟩
    (Value.record ⟨"H1", "low", "", ""⟩) rfl rfl (by decide)

/-! ## C9 — substring ownership check -/

theorem readState_error_kind (s : Store) (k : Key) (e : Err)
    (h : readState s k = .error e) : ∃ m, e = .notFound m := by
  cases hg : Store.get s k with
  | none =>
    simp only [readState, hg] at h
    injection h with h2
    exact ⟨_, h2.symm⟩
  | some v =>
    simp only [readState, hg] at h
    cases h

theorem readRecordAt_error_kind (s : Store) (dt pid : String) (e : Err)
    (h : readRecordAt s dt pid = .error e) :
    (∃ m, e = .notFound m) ∨ (∃ m, e = .invalidInput m) := by
  unfold readRecordAt at h
  cases hrs : readState s (Key.record dt pid) with
  | error e2 =>
    rw [hrs] at h
    injection h with h2
    obtain ⟨m, hm⟩ := readState_error_kind s _ e2 hrs
    exact Or.inl ⟨m, by rw [← h2, hm]⟩
  | ok v =>
    rw [hrs] at h
    cases v with
    | record r => cases h
    | pol p => injection h with h2; exact Or.inr ⟨_, h2.symm⟩
    | aud a => injection h with h2; exact Or.inr ⟨_, h2.symm⟩

theorem logAudit_error_kind (s : Store) (ctx : Ctx) (a : String) (d : Details) (e : Err)
    (h : logAudit s ctx a d = .error e) : ∃ m, e = .internal m := by
  unfold logAudit at h
  split at h
  · cases hts : ctx.txTimestamp with
    | none =>
      rw [hts] at h
      injection h with h2
      exact ⟨_, h2.symm⟩
    | some ts =>
      rw [hts] at h
      cases h
  · cases h

def c9S : Store := [(Key.record "ehr" "p1", Value.record ⟨"H1", "low", "", ""⟩)]

def c9Ctx : Ctx :=
  ⟨some "patient", some "H1", none, "x509::CN=p12::CA", "healthshare-channel",
   "tx-c9", some 7, 1000⟩

/-- C9: the ownership gate of the four patient operations passes exactly when
the caller identifier contains `patientId` as a substring — without
containment each operation fails with its own-record access-denied error;
with containment none of them can produce that error.  In particular the
caller id `x509::CN=p12::CA` (patient `p12`) contains the unrelated patient
id `p1`, so it passes the ownership check for `p1` and reads `p1`'s record. -/
theorem c9_ownership_substring (s : Store) (ctx : Ctx)
    (pid dt role perms : String) (expiry : Option Nat) (payload : Rec)
    (hrole : ctx.role = some "patient") :
    (jsIncludes ctx.callerId pid = false →
      readMyRecord s ctx pid dt =
        .error (.accessDenied "Access denied: Can only read your own record") ∧
      updateMyRecord s ctx pid dt payload =
        .error (.accessDenied "Access denied: Can only update your own record") ∧
      grantAccess s ctx pid role dt perms expiry =
        .error (.accessDenied "Access denied: Can only grant access for your own record") ∧
      revokeAccess s ctx pid role dt =
        .error (.accessDenied "Access denied: Can only revoke access for your own record")) ∧
    (jsIncludes ctx.callerId pid = true →
      readMyRecord s ctx pid dt ≠
        .error (.accessDenied "Access denied: Can only read your own record") ∧
      updateMyRecord s ctx pid dt payload ≠
        .error (.accessDenied "Access denied: Can only update your own record") ∧
      grantAccess s ctx pid role dt perms expiry ≠
        .error (.accessDenied "Access denied: Can only grant access for your own record") ∧
      revokeAccess s ctx pid role dt ≠
        .error (.accessDenied "Access denied: Can only revoke access for your own record")) ∧
    (jsIncludes "x509::CN=p12::CA" "p1" = true ∧
      readMyRecord c9S c9Ctx "p1" "ehr" = .ok (Value.record ⟨"H1", "low", "", ""⟩, c9S)) := by
  have hrr := requireRole_some_mem ctx ["patient"] "patient" hrole (by decide) (by decide)
  refine ⟨?_, ?_, by decide, by decide⟩
  · intro hni
    refine ⟨?_, ?_, ?_, ?_⟩
    · unfold readMyRecord
      rw [hrr, except_bind_ok, if_pos hni, except_throw, except_bind_error]
    · unfold updateMyRecord
      rw [hrr, except_bind_ok, if_pos hni, except_throw, except_bind_error]
    · unfold grantAccess
      rw [hrr, except_bind_ok, if_pos hni, except_throw, except_bind_error]
    · unfold revokeAccess
      rw [hrr, except_bind_ok, if_pos hni, except_throw, except_bind_error]
  · intro hinc
    have hni : ¬(jsIncludes ctx.callerId pid = false) := by simp [hinc]
    refine ⟨?_, ?_, ?_, ?_⟩
    · unfold readMyRecord
      rw [hrr, except_bind_ok, if_neg hni, except_pure, except_bind_ok]
      cases hrs : readState s (Key.record dt pid) with
      | error e2 =>
        obtain ⟨m, hm⟩ := readState_error_kind s _ e2 hrs
        subst hm
        simp [except_bind_error]
      | ok v =>
        rw [except_bind_ok]
        cases hla : logAudit s ctx "readMyRecord" ⟨some pid, dt⟩ with
        | error e2 =>
          obtain ⟨m, hm⟩ := logAudit_error_kind s ctx _ _ e2 hla
          subst hm
          simp [except_bind_error]
        | ok s2 => simp [except_bind_ok, except_pure]
    · unfold updateMyRecord
      rw [hrr, except_bind_ok, if_neg hni, except_pure, except_bind_ok]
      cases hrd : readRecordAt s dt pid with
      | error e2 =>
        rcases readRecordAt_error_kind s dt pid e2 hrd with ⟨m, hm⟩ | ⟨m, hm⟩ <;>
          (subst hm; simp [except_bind_error])
      | ok old =>
        rw [except_bind_ok]
        simp only []
        cases hla : logAudit (s.put (Key.record dt pid)
            (Value.record { payload with
              hospitalID := old.hospitalID
              sensitivity := if payload.sensitivity = "" then old.sensitivity
                else payload.sensitivity }))
            ctx "updateMyRecord" ⟨some pid, dt⟩ with
        | error e2 =>
          obtain ⟨m, hm⟩ := logAudit_error_kind _ ctx _ _ e2 hla
          subst hm
          simp [except_bind_error]
        | ok s2 => simp [except_bind_ok, except_pure]
    · unfold grantAccess
      rw [hrr, except_bind_ok, if_neg hni, except_pure, except_bind_ok]
      by_cases hperm : (!((jsSplitComma perms).map jsTrim).all
          (fun q => validPermissions.contains q)) = true
      · rw [if_pos (by simpa using hperm), except_throw, except_bind_error]
        simp
      · rw [if_neg (by simpa using hperm)]
        simp only [except_bind_ok]
        cases hla : logAudit (s.put (Key.policyKey pid role dt)
            (Value.pol ⟨pid, role, dt, (jsSplitComma perms).map jsTrim,
              expiry⟩)) ctx "grantAccess" ⟨some pid, dt⟩ with
        | error e2 =>
          obtain ⟨m, hm⟩ := logAudit_error_kind _ ctx _ _ e2 hla
          subst hm
          simp [except_bind_error]
        | ok s2 => simp [except_bind_ok, except_pure]
    · unfold revokeAccess
      rw [hrr, except_bind_ok, if_neg hni, except_pure, except_bind_ok]
      simp only []
      cases hrs : readState s (Key.policyKey pid role dt) with
      | error e2 =>
        obtain ⟨m, hm⟩ := readState_error_kind s _ e2 hrs
        subst hm
        simp [except_bind_error]
      | ok v =>
        rw [except_bind_ok]
        cases hla : logAudit (s.del (Key.policyKey pid role dt))
            ctx "revokeAccess" ⟨some pid, dt⟩ with
        | error e2 =>
          obtain ⟨m, hm⟩ := logAudit_error_kind _ ctx _ _ e2 hla
          subst hm
          simp [except_bind_error]
        | ok s2 => simp [except_bind_ok, except_pure]

def c9wCtx : Ctx :=
  ⟨some "patient", some "H1", none, "x509::CN=q9::CA", "healthshare-channel",
   "tx-c9w", some 7, 1000⟩

/-- C9 witness: for a caller id not containing `p1`, the four operations all
fail with the ownership error; for the containing caller they do not, and the
`p12`-reads-`p1` false positive holds. -/
theorem c9_witness :
    (readMyRecord c9S c9wCtx "p1" "ehr" =
        .error (.accessDenied "Access denied: Can only read your own record") ∧
      updateMyRecord c9S c9wCtx "p1" "ehr" ⟨"", "", "", ""⟩ =
        .error (.accessDenied "Access denied: Can only update your own record") ∧
      grantAccess c9S c9wCtx "p1" "doctor" "ehr" "read" none =
        .error (.accessDenied "Access denied: Can only grant access for your own record") ∧
      revokeAccess c9S c9wCtx "p1" "doctor" "ehr" =
        .error (.accessDenied "Access denied: Can only revoke access for your own record")) ∧
    (jsIncludes "x509::CN=p12::CA" "p1" = true ∧
      readMyRecord c9S c9Ctx "p1" "ehr" = .ok (Value.record ⟨"H1", "low", "", ""⟩, c9S)) :=
  ⟨(c9_ownership_substring c9S c9wCtx "p1" "ehr" "doctor" "read" none
      ⟨"", "", "", ""⟩ rfl).1 (by decide),
   (c9_ownership_substring c9S c9Ctx "p1" "ehr" "doctor" "read" none
      ⟨"", "", "", ""⟩ rfl).2.2⟩

/-! ## C10 — scan iterator release -/

def c10S : Store :=
  [(Key.policyKey "p1" "doctor" "ehr", Value.pol ⟨"p1", "doctor", "ehr", ["read"], none⟩),
   (Key.record "ehr" "p1", Value.record ⟨"H1", "low", "", ""⟩)]

def c10Shigh : Store :=
  [(Key.policyKey "p1" "doctor" "ehr", Value.pol ⟨"p1", "doctor", "ehr", ["read"], none⟩),
   (Key.record "ehr" "p1", Value.record ⟨"H1", "high", "", ""⟩)]

def c10Ctx : Ctx :=
  ⟨some "doctor", some "H1", none, "x509::CN=d1::CA", "healthshare-channel",
   "tx-c10", some 7, 1000⟩

/-- C10 is false of the code: the scan loop of `_checkAccessPolicy` calls
`iterator.close()` only on the `res.done` exhaustion branch.  On the
early-`break` path where a matching policy grants access, and on the
clearance-throw path, the function exits without closing the iterator
(second component `false`); only a scan that reaches exhaustion closes it
(second component `true`). -/
theorem c10_iterator_leak :
    (checkAccessPolicy c10S c10Ctx "p1" "ehr" "read") =
      (.ok ⟨"H1", "low", "", ""⟩, false) ∧
    denied (checkAccessPolicy c10Shigh c10Ctx "p1" "ehr" "read").1 = true ∧
    (checkAccessPolicy c10Shigh c10Ctx "p1" "ehr" "read").2 = false ∧
    (checkAccessPolicy ([] : Store) c10Ctx "p1" "ehr" "read").2 = true :=
  ⟨by decide, by decide, by decide, by decide⟩

end HealthShare